import Mathlib

/-!
Verification development for the worldbox maps compressor console tool
(src/main.rs).

The program is a transcoder between a zlib-compressed container and its
decompressed UTF-8 (typically JSON) text form.  We model:

* byte sequences (Rust `Vec<u8>` / `&[u8]`) as `List Nat`;
* text (Rust `String` / `&str`, a sequence of Unicode scalar values) as
  `List Nat` together with the scalar-validity predicate, and the UTF-8
  encoding/decoding boundary (`str::as_bytes`, `read_to_string`,
  `read_to_string`'s UTF-8 validation) concretely;
* the external zlib codec (flate2 `ZlibEncoder`/`ZlibDecoder`) and the
  external JSON library (serde_json `from_str`/`to_string_pretty`) as
  function parameters; the contracts those libraries document (zlib
  inflate∘deflate round-trip, serde re-parse of serialized values) appear
  as explicit hypotheses of the theorems that need them;
* the whole `run` function (main.rs lines 29-127) as a pure function over
  a `World` record describing the file system, dialog answers and the
  library functions, returning the run's outcome plus a trace of the
  I/O-relevant events (file reads, applied transforms, file writes).
-/

/-- Byte sequences (Rust `Vec<u8>` / `&[u8]`).  Each element is one byte. -/
abbrev Bytes := List Nat

/-- Text (Rust `String` / `&str`): a sequence of Unicode scalar values. -/
abbrev Text := List Nat

/-- `n` is a Unicode scalar value (what a Rust `char` holds): below
`0x110000` and not a surrogate. -/
abbrev ValidScalar (n : Nat) : Prop := n < 0x110000 ∧ (n < 0xD800 ∨ 0xDFFF < n)

/-- Every element is a Unicode scalar value — the invariant of a Rust
`String`. -/
abbrev ValidText (t : Text) : Prop := ∀ n ∈ t, ValidScalar n

/-- UTF-8 encoding of a single Unicode scalar value (one Rust `char`),
as performed by `str::as_bytes` on its underlying buffer. -/
def utf8EncodeChar (n : Nat) : Bytes :=
  if n < 0x80 then [n]
  else if n < 0x800 then
    [0xC0 + n / 0x40, 0x80 + n % 0x40]
  else if n < 0x10000 then
    [0xE0 + n / 0x1000, 0x80 + n / 0x40 % 0x40, 0x80 + n % 0x40]
  else
    [0xF0 + n / 0x40000, 0x80 + n / 0x1000 % 0x40, 0x80 + n / 0x40 % 0x40,
      0x80 + n % 0x40]

/-- UTF-8 encoding of a text (`str::as_bytes`). -/
def utf8Encode : Text → Bytes
  | [] => []
  | c :: cs => utf8EncodeChar c ++ utf8Encode cs

/-- Decode one UTF-8-encoded scalar from the front of a byte sequence,
returning the scalar and the remaining bytes.  Rejects stray continuation
bytes, overlong encodings, surrogates, values above `0x10FFFF` and
truncated sequences — exactly the sequences Rust's UTF-8 validation
(`Read::read_to_string`, `String::from_utf8`) rejects. -/
def utf8DecodeChar? : Bytes → Option (Nat × Bytes)
  | [] => none
  | b0 :: rest =>
    if b0 < 0x80 then some (b0, rest)
    else if b0 < 0xC2 then none
    else if b0 < 0xE0 then
      match rest with
      | b1 :: r =>
        if 0x80 ≤ b1 ∧ b1 < 0xC0 then
          some ((b0 - 0xC0) * 0x40 + (b1 - 0x80), r)
        else none
      | [] => none
    else if b0 < 0xF0 then
      match rest with
      | b1 :: b2 :: r =>
        if 0x80 ≤ b1 ∧ b1 < 0xC0 then
          if 0x80 ≤ b2 ∧ b2 < 0xC0 then
            if (b0 - 0xE0) * 0x1000 + (b1 - 0x80) * 0x40 + (b2 - 0x80) < 0x800
                ∨ (0xD800 ≤ (b0 - 0xE0) * 0x1000 + (b1 - 0x80) * 0x40 + (b2 - 0x80)
                   ∧ (b0 - 0xE0) * 0x1000 + (b1 - 0x80) * 0x40 + (b2 - 0x80) ≤ 0xDFFF)
            then none
            else some ((b0 - 0xE0) * 0x1000 + (b1 - 0x80) * 0x40 + (b2 - 0x80), r)
          else none
        else none
      | _ => none
    else if b0 < 0xF5 then
      match rest with
      | b1 :: b2 :: b3 :: r =>
        if 0x80 ≤ b1 ∧ b1 < 0xC0 then
          if 0x80 ≤ b2 ∧ b2 < 0xC0 then
            if 0x80 ≤ b3 ∧ b3 < 0xC0 then
              if (b0 - 0xF0) * 0x40000 + (b1 - 0x80) * 0x1000
                    + (b2 - 0x80) * 0x40 + (b3 - 0x80) < 0x10000
                  ∨ 0x10FFFF < (b0 - 0xF0) * 0x40000 + (b1 - 0x80) * 0x1000
                    + (b2 - 0x80) * 0x40 + (b3 - 0x80)
              then none
              else some ((b0 - 0xF0) * 0x40000 + (b1 - 0x80) * 0x1000
                    + (b2 - 0x80) * 0x40 + (b3 - 0x80), r)
            else none
          else none
        else none
      | _ => none
    else none

/-- Full UTF-8 validation and decoding with structural fuel.  Every decoded
scalar consumes at least one byte, so one unit of fuel per input byte always
suffices (see `utf8Decode`). -/
def utf8DecodeFuel : Nat → Bytes → Option (List Nat)
  | 0, l => if l = [] then some [] else none
  | fuel + 1, l =>
    if l = [] then some []
    else
      Option.bind (utf8DecodeChar? l)
        (fun nr => Option.map (fun t => nr.1 :: t) (utf8DecodeFuel fuel nr.2))

/-- UTF-8 validation and decoding of a full byte sequence: `some` text on
valid UTF-8, `none` otherwise.  Models Rust's `String::from_utf8` /
`Read::read_to_string` UTF-8 check. -/
def utf8Decode (l : Bytes) : Option (List Nat) := utf8DecodeFuel l.length l

/-- main.rs `decompress` (lines 149-154): run the bytes through the zlib
decoder and collect the output with `read_to_string`, which additionally
validates UTF-8.  The external flate2 inflate step is the `inflate`
parameter (`none` models any zlib decode failure); the UTF-8 validation is
`utf8Decode`.  `Except.error ()` models the propagated `anyhow` error. -/
def decompress (inflate : Bytes → Option Bytes) (data : Bytes) :
    Except Unit Text :=
  match inflate data with
  | none => Except.error ()
  | some raw =>
    match utf8Decode raw with
    | none => Except.error ()
    | some t => Except.ok t

/-- main.rs `compress` (lines 156-160): UTF-8 encode the text
(`text.as_bytes()`) and run it through the zlib encoder at the default
level (the `deflate` parameter).  Writing into an in-memory `Vec` cannot
fail, so the function is total and the source's `Ok` wrapper is dropped. -/
def compress (deflate : Bytes → Bytes) (text : Text) : Bytes :=
  deflate (utf8Encode text)

/-- `Result::is_ok` on the modelled `anyhow::Result`. -/
def exceptOk {ε α : Type} : Except ε α → Bool
  | Except.ok _ => true
  | Except.error _ => false

/-- main.rs `is_file_compressed` (lines 142-147), applied to the bytes read
from the file: the detector is exactly `decompress(..).is_ok()`. -/
def is_file_compressed (inflate : Bytes → Option Bytes) (data : Bytes) : Bool :=
  exceptOk (decompress inflate data)

/-- main.rs `format_json` (lines 162-170) with serde_json abstracted:
`jparse` models `serde_json::from_str::<Value>` and `jpretty` models
`serde_json::to_string_pretty`; each `none` is the library's error case and
both error branches fall back to the input string unchanged. -/
def format_json {J : Type} (jparse : Text → Option J)
    (jpretty : J → Option Text) (s : Text) : Text :=
  match jparse s with
  | none => s
  | some v =>
    match jpretty v with
    | none => s
    | some p => p

/-- A file-system path as the program observes it: `std::path` data used by
main.rs.  `stem` is `file_stem()`, `ext` is `extension()` (`none` when the
file name has no extension), `isUnicode` is whether `to_str()` succeeds. -/
structure FsPath where
  stem : Text
  ext : Option Text
  isUnicode : Bool
deriving DecidableEq

/-- The I/O-relevant events of one run, in order: a successful read of a
file's bytes, the application of one of the two transforms, a successful
write of the output file. -/
inductive RunEvent where
  | readFile : FsPath → RunEvent
  | appliedDecompress : RunEvent
  | appliedCompress : RunEvent
  | wroteFile : FsPath → Bytes → RunEvent
deriving DecidableEq

/-- The error kinds `run` can propagate (section 7 of the spec; each maps
to one `anyhow` error construction site in main.rs). -/
inductive RunError where
  | inputNotFound
  | selectFailed
  | unsupportedExtension
  | sizeQueryFailed
  | readFailed
  | saveSelectFailed
  | decompressFailed
  | utf8Failed
  | writeFailed
  | outSizeFailed
deriving DecidableEq

/-- Everything one execution of `run` can observe: the external zlib codec
and serde_json (as functions), the command-line argument, the file system
(existence test, metadata size query, byte contents, write success, output
metadata size query) and the two dialog answers (`none` = cancelled). -/
structure World (J : Type) where
  deflate : Bytes → Bytes
  inflate : Bytes → Option Bytes
  jparse : Text → Option J
  jpretty : J → Option Text
  argPath : Option FsPath
  pathExists : FsPath → Bool
  metadataLen : FsPath → Option Nat
  fsRead : FsPath → Option Bytes
  pickResult : Option FsPath
  saveResult : Option FsPath
  writeOk : FsPath → Bool
  outMetaLen : FsPath → Option Nat

/-- ASCII lowercasing of one scalar.  main.rs compares
`ext.to_lowercase()` against the ASCII literals wbox/wbax/json; Unicode
lowercasing maps no non-ASCII scalar to any of the letters of those
literals alone, so the ASCII restriction decides the comparison
identically. -/
def lowerScalar (n : Nat) : Nat :=
  if 0x41 ≤ n ∧ n ≤ 0x5A then n + 0x20 else n

/-- `str::to_lowercase` restricted as described at `lowerScalar`. -/
def toLowerT (t : Text) : Text := t.map lowerScalar

/-- The text wbox. -/
def wboxT : Text := [0x77, 0x62, 0x6F, 0x78]

/-- The text wbax. -/
def wbaxT : Text := [0x77, 0x62, 0x61, 0x78]

/-- The text json. -/
def jsonT : Text := [0x6A, 0x73, 0x6F, 0x6E]

/-- main.rs lines 52-65: the lowercased extension must be wbox, wbax or
json; a missing extension (or one that is not valid Unicode) is rejected
like any other mismatch. -/
def extAllowed (p : FsPath) : Bool :=
  match p.ext with
  | none => false
  | some e => decide (toLowerT e = wboxT ∨ toLowerT e = wbaxT ∨ toLowerT e = jsonT)

/-- Prefix one event onto the trace of a step's outcome. -/
def withPre (e : RunEvent) (x : Except RunError Unit × List RunEvent) :
    Except RunError Unit × List RunEvent :=
  (x.1, e :: x.2)

/-- main.rs lines 93-108 (the decompress branch of `run`): re-read the
input file, decompress it, pretty-print if JSON, write the text, then query
the output size.  The trace records the read, the applied transform and the
write. -/
def decompressGo {J : Type} (w : World J) (p op : FsPath) :
    Except RunError Unit × List RunEvent :=
  match w.fsRead p with
  | none => (Except.error RunError.readFailed, [])
  | some data =>
    match decompress w.inflate data with
    | Except.error _ => (Except.error RunError.decompressFailed, [RunEvent.readFile p])
    | Except.ok s =>
      if w.writeOk op then
        match w.outMetaLen op with
        | none =>
          (Except.error RunError.outSizeFailed,
            [RunEvent.readFile p, RunEvent.appliedDecompress,
              RunEvent.wroteFile op (utf8Encode (format_json w.jparse w.jpretty s))])
        | some _ =>
          (Except.ok (),
            [RunEvent.readFile p, RunEvent.appliedDecompress,
              RunEvent.wroteFile op (utf8Encode (format_json w.jparse w.jpretty s))])
      else
        (Except.error RunError.writeFailed,
          [RunEvent.readFile p, RunEvent.appliedDecompress])

/-- main.rs lines 109-124 (the compress branch of `run`): read the input as
UTF-8 text (`fs::read_to_string`), compress it, write the bytes, then query
the output size. -/
def compressGo {J : Type} (w : World J) (p op : FsPath) :
    Except RunError Unit × List RunEvent :=
  match w.fsRead p with
  | none => (Except.error RunError.readFailed, [])
  | some data =>
    match utf8Decode data with
    | none => (Except.error RunError.utf8Failed, [RunEvent.readFile p])
    | some text =>
      if w.writeOk op then
        match w.outMetaLen op with
        | none =>
          (Except.error RunError.outSizeFailed,
            [RunEvent.readFile p, RunEvent.appliedCompress,
              RunEvent.wroteFile op (compress w.deflate text)])
        | some _ =>
          (Except.ok (),
            [RunEvent.readFile p, RunEvent.appliedCompress,
              RunEvent.wroteFile op (compress w.deflate text)])
      else
        (Except.error RunError.writeFailed,
          [RunEvent.readFile p, RunEvent.appliedCompress])

/-- main.rs lines 52-127, after the input path has been chosen: extension
check, input size query, detection probe (`is_file_compressed`, which reads
the file), save dialog (`none` = cancelled propagates as the
Failed-to-save-file error; a chosen path that is not valid Unicode is the
quiet File-is-not-saved early return), then exactly one of the two
branches. -/
def runWithInput {J : Type} (w : World J) (p : FsPath) :
    Except RunError Unit × List RunEvent :=
  if extAllowed p then
    match w.metadataLen p with
    | none => (Except.error RunError.sizeQueryFailed, [])
    | some _ =>
      match w.fsRead p with
      | none => (Except.error RunError.readFailed, [])
      | some data =>
        match w.saveResult with
        | none => (Except.error RunError.saveSelectFailed, [RunEvent.readFile p])
        | some op =>
          if op.isUnicode then
            if is_file_compressed w.inflate data then
              withPre (RunEvent.readFile p) (decompressGo w p op)
            else
              withPre (RunEvent.readFile p) (compressGo w p op)
          else (Except.ok (), [RunEvent.readFile p])
  else (Except.error RunError.unsupportedExtension, [])

/-- main.rs `run` (lines 29-127).  Input selection first: an explicit
argument must exist (else the Input-file-does-not-exist error); otherwise
the open dialog is consulted — a cancelled dialog (`pick_file()` returning
`None`) propagates through `.context(..)?` as the Failed-to-select-file
error, while a picked path that is not valid Unicode takes the quiet
File-is-not-selected early return. -/
def run {J : Type} (w : World J) : Except RunError Unit × List RunEvent :=
  match w.argPath with
  | some p =>
    if w.pathExists p then runWithInput w p
    else (Except.error RunError.inputNotFound, [])
  | none =>
    match w.pickResult with
    | none => (Except.error RunError.selectFailed, [])
    | some p =>
      if p.isUnicode then runWithInput w p
      else (Except.ok (), [])

/-- Whether an event is the application of one of the two transforms. -/
def isTransform : RunEvent → Bool
  | RunEvent.appliedDecompress => true
  | RunEvent.appliedCompress => true
  | _ => false

/-- How many transform applications a trace contains. -/
def transformCount (tr : List RunEvent) : Nat := tr.countP isTransform


/-- A sample input path with extension json (stem a). -/
def samplePathJson : FsPath := { stem := [0x61], ext := some jsonT, isUnicode := true }

/-- A sample input path with extension txt (stem a). -/
def samplePathTxt : FsPath := { stem := [0x61], ext := some [0x74, 0x78, 0x74], isUnicode := true }

/-- A sample output path. -/
def samplePathOut : FsPath := { stem := [0x62], ext := some jsonT, isUnicode := true }

/-- A dialog answer whose path is not valid Unicode (`to_str()` fails). -/
def nonUnicodePath : FsPath := { stem := [], ext := none, isUnicode := false }

/-- A world in which nothing is available: no argument, every dialog
cancelled, every file operation failing. -/
def noWorld : World Unit where
  deflate := fun b => b
  inflate := fun _ => none
  jparse := fun _ => none
  jpretty := fun _ => none
  argPath := none
  pathExists := fun _ => false
  metadataLen := fun _ => none
  fsRead := fun _ => none
  pickResult := none
  saveResult := none
  writeOk := fun _ => false
  outMetaLen := fun _ => none

/-- A world that reaches the save dialog and has it cancelled. -/
def saveCancelWorld : World Unit :=
  { noWorld with
      argPath := some samplePathJson
      pathExists := fun _ => true
      metadataLen := fun _ => some 1
      fsRead := fun _ => some [0x61] }

/-- A world whose open dialog answers with a non-Unicode path: the run is a
successful early no-op. -/
def quietNoOpWorld : World Unit := { noWorld with pickResult := some nonUnicodePath }

/-- A world that runs the compress branch end to end on the one-byte text
a, with an identity deflate and an always-failing inflate. -/
def compressHappyWorld : World Unit :=
  { noWorld with
      argPath := some samplePathJson
      pathExists := fun _ => true
      metadataLen := fun _ => some 1
      fsRead := fun _ => some [0x61]
      saveResult := some samplePathOut
      writeOk := fun _ => true
      outMetaLen := fun _ => some 1 }

/-- Like `compressHappyWorld`, but the input file holds the single byte
0x80, which is not valid UTF-8. -/
def badUtfWorld : World Unit :=
  { compressHappyWorld with fsRead := fun _ => some [0x80] }

/-- A world on the decompress branch whose payload parses as JSON: inflate
always yields the byte 0x31 (the text 1), the JSON parser accepts exactly
that text, and the pretty-printer prints it back. -/
def jsonWorld : World Unit :=
  { compressHappyWorld with
      inflate := fun _ => some [0x31]
      fsRead := fun _ => some []
      jparse := fun t => if t = [0x31] then some () else none
      jpretty := fun _ => some [0x31] }

/-- A world on the decompress branch whose payload (the text a) does not
parse as JSON. -/
def nonJsonWorld : World Unit :=
  { compressHappyWorld with
      inflate := fun _ => some [0x61]
      fsRead := fun _ => some [] }

/-- A world whose argument path exists but carries the extension txt. -/
def txtWorld : World Unit :=
  { noWorld with
      argPath := some samplePathTxt
      pathExists := fun _ => true }

theorem utf8EncodeChar_ne_nil (n : Nat) : utf8EncodeChar n ≠ [] := by
  unfold utf8EncodeChar
  split_ifs <;> simp

theorem utf8EncodeChar_append_ne_nil (n : Nat) (bs : Bytes) :
    utf8EncodeChar n ++ bs ≠ [] := by
  intro h
  exact utf8EncodeChar_ne_nil n (List.append_eq_nil.mp h).1

/-- Decoding one scalar from the front of `utf8EncodeChar n ++ bs` recovers
`n` and `bs`, for any Unicode scalar value `n`. -/
theorem utf8DecodeChar?_encode (n : Nat) (hn : ValidScalar n) (bs : Bytes) :
    utf8DecodeChar? (utf8EncodeChar n ++ bs) = some (n, bs) := by
  obtain ⟨h1, h2⟩ := hn
  by_cases ha : n < 0x80
  · have henc : utf8EncodeChar n = [n] := by
      unfold utf8EncodeChar; rw [if_pos ha]
    rw [henc]
    simp only [List.cons_append, List.nil_append, utf8DecodeChar?]
    rw [if_pos ha]
  · by_cases hb : n < 0x800
    · have henc : utf8EncodeChar n = [0xC0 + n / 0x40, 0x80 + n % 0x40] := by
        unfold utf8EncodeChar; rw [if_neg ha, if_pos hb]
      rw [henc]
      simp only [List.cons_append, List.nil_append, utf8DecodeChar?]
      rw [if_neg (by omega), if_neg (by omega), if_pos (by omega),
        if_pos (by omega)]
      have hv : (0xC0 + n / 0x40 - 0xC0) * 0x40 + (0x80 + n % 0x40 - 0x80) = n := by
        omega
      rw [hv]
    · by_cases hc : n < 0x10000
      · have henc : utf8EncodeChar n
            = [0xE0 + n / 0x1000, 0x80 + n / 0x40 % 0x40, 0x80 + n % 0x40] := by
          unfold utf8EncodeChar; rw [if_neg ha, if_neg hb, if_pos hc]
        rw [henc]
        simp only [List.cons_append, List.nil_append, utf8DecodeChar?]
        rw [if_neg (by omega), if_neg (by omega), if_neg (by omega),
          if_pos (by omega), if_pos (by omega), if_pos (by omega),
          if_neg (by omega)]
        have hv : (0xE0 + n / 0x1000 - 0xE0) * 0x1000
            + (0x80 + n / 0x40 % 0x40 - 0x80) * 0x40
            + (0x80 + n % 0x40 - 0x80) = n := by omega
        rw [hv]
      · have henc : utf8EncodeChar n
            = [0xF0 + n / 0x40000, 0x80 + n / 0x1000 % 0x40,
                0x80 + n / 0x40 % 0x40, 0x80 + n % 0x40] := by
          unfold utf8EncodeChar; rw [if_neg ha, if_neg hb, if_neg hc]
        rw [henc]
        simp only [List.cons_append, List.nil_append, utf8DecodeChar?]
        rw [if_neg (by omega), if_neg (by omega), if_neg (by omega),
          if_neg (by omega), if_pos (by omega), if_pos (by omega),
          if_pos (by omega), if_pos (by omega), if_neg (by omega)]
        have hv : (0xF0 + n / 0x40000 - 0xF0) * 0x40000
            + (0x80 + n / 0x1000 % 0x40 - 0x80) * 0x1000
            + (0x80 + n / 0x40 % 0x40 - 0x80) * 0x40
            + (0x80 + n % 0x40 - 0x80) = n := by omega
        rw [hv]

/-- With enough fuel (one per encoded byte), decoding the encoding of a
valid text yields the text back. -/
theorem utf8DecodeFuel_encode (t : Text) (ht : ValidText t) :
    ∀ fuel, (utf8Encode t).length ≤ fuel →
      utf8DecodeFuel fuel (utf8Encode t) = some t := by
  induction t with
  | nil =>
    intro fuel _
    cases fuel <;> simp [utf8DecodeFuel, utf8Encode]
  | cons c cs ih =>
    intro fuel hf
    have hc : ValidScalar c := ht c (List.mem_cons_self c cs)
    have hcs : ValidText cs := fun n hn => ht n (List.mem_cons_of_mem _ hn)
    have henc : utf8Encode (c :: cs) = utf8EncodeChar c ++ utf8Encode cs := rfl
    rw [henc] at hf ⊢
    rw [List.length_append] at hf
    have hlen : 1 ≤ (utf8EncodeChar c).length := by
      rcases h : utf8EncodeChar c with _ | ⟨b, l⟩
      · exact absurd h (utf8EncodeChar_ne_nil c)
      · simp
    obtain ⟨f, rfl⟩ : ∃ f, fuel = f + 1 := ⟨fuel - 1, by omega⟩
    rw [utf8DecodeFuel, if_neg (utf8EncodeChar_append_ne_nil c _),
      utf8DecodeChar?_encode c hc]
    show Option.map (fun t => c :: t) (utf8DecodeFuel f (utf8Encode cs))
        = some (c :: cs)
    rw [ih hcs f (by omega)]
    rfl

/-- UTF-8 round-trip: decoding the encoding of a valid text yields the text
back.  This is the `String`-level content of the decompress∘compress
round-trip. -/
theorem utf8Decode_encode (t : Text) (ht : ValidText t) :
    utf8Decode (utf8Encode t) = some t :=
  utf8DecodeFuel_encode t ht _ le_rfl


/-- C1: for every valid UTF-8 text y, decompressing the result of
compressing y reproduces y exactly — decompress(compress(y)) = Ok(y).  The
external zlib codec enters through its documented round-trip contract
(inflating the deflated bytes returns them unchanged); the UTF-8 layer
(`as_bytes` on compress, `read_to_string` on decompress) is modelled
concretely and proved to round-trip. -/
theorem decompress_compress_roundtrip (deflate : Bytes → Bytes)
    (inflate : Bytes → Option Bytes)
    (hzlib : ∀ b, inflate (deflate b) = some b)
    (y : Text) (hy : ValidText y) :
    decompress inflate (compress deflate y) = Except.ok y := by
  simp [decompress, compress, hzlib, utf8Decode_encode y hy]

/-- Witness for C1: the identity codec satisfies the zlib contract, and the
two-scalar text hi round-trips. -/
theorem decompress_compress_roundtrip_witness :
    decompress (fun b => some b) (compress (fun b => b) [0x68, 0x69])
      = Except.ok [0x68, 0x69] :=
  decompress_compress_roundtrip (fun b => b) (fun b => some b)
    (fun _ => rfl) [0x68, 0x69] (by decide)

/-- C2: the detector classifies a byte sequence as compressed exactly when
running it through the decompression algorithm succeeds (the whole stream
decodes into valid UTF-8 text); any decode failure classifies it as not
compressed. -/
theorem is_file_compressed_iff_decode_ok (inflate : Bytes → Option Bytes)
    (data : Bytes) :
    is_file_compressed inflate data = true
      ↔ ∃ t, decompress inflate data = Except.ok t := by
  unfold is_file_compressed
  cases h : decompress inflate data <;> simp [exceptOk, h]

theorem compressGo_ne_decompressFailed {J : Type} (w : World J) (p op : FsPath) :
    (compressGo w p op).1 ≠ Except.error RunError.decompressFailed := by
  unfold compressGo
  split
  · simp
  · split
    · simp
    · split
      · split <;> simp
      · simp

theorem decompressGo_ne_decompressFailed {J : Type} (w : World J) (p op : FsPath)
    (data : Bytes) (hfs : w.fsRead p = some data)
    (hcomp : is_file_compressed w.inflate data = true) :
    (decompressGo w p op).1 ≠ Except.error RunError.decompressFailed := by
  cases h : decompress w.inflate data with
  | error e =>
    unfold is_file_compressed at hcomp
    rw [h] at hcomp
    simp [exceptOk] at hcomp
  | ok s =>
    unfold decompressGo
    simp only [hfs, h]
    split
    · split <;> simp
    · simp

theorem runWithInput_ne_decompressFailed {J : Type} (w : World J) (p : FsPath) :
    (runWithInput w p).1 ≠ Except.error RunError.decompressFailed := by
  unfold runWithInput
  split
  · split
    · simp
    · split
      · simp
      · next data hfs =>
        split
        · simp
        · next op hsave =>
          split
          · split
            · next hcomp =>
              exact decompressGo_ne_decompressFailed w p op data hfs hcomp
            · next hncomp =>
              exact compressGo_ne_decompressFailed w p op
          · simp
  · simp

/-- C3: a decompression failure is never surfaced outside the detection
probe — no run, over any world, can end with the decompress-failure error,
because the decompress branch is only entered after the detection probe
decoded the same bytes successfully. -/
theorem run_decompressFailed_unreachable {J : Type} (w : World J) :
    (run w).1 ≠ Except.error RunError.decompressFailed := by
  unfold run
  split
  · split
    · exact runWithInput_ne_decompressFailed w _
    · simp
  · split
    · simp
    · split
      · exact runWithInput_ne_decompressFailed w _
      · simp

/-- Witness for C3 at a concrete world. -/
theorem run_decompressFailed_unreachable_witness :
    (run noWorld).1 ≠ Except.error RunError.decompressFailed :=
  run_decompressFailed_unreachable noWorld

/-- C10: determinism — identical byte inputs (and identical worlds) give
identical classification, identical transform outputs and identical run
outcomes.  In this embedding every operation of main.rs is a pure function
of its input and of the fixed library functions, so determinism is exact. -/
theorem transcoder_deterministic {J : Type} (deflate : Bytes → Bytes)
    (inflate : Bytes → Option Bytes) (jparse : Text → Option J)
    (jpretty : J → Option Text) (w1 w2 : World J) (d1 d2 : Bytes)
    (t1 t2 s1 s2 : Text)
    (hd : d1 = d2) (ht : t1 = t2) (hs : s1 = s2) (hw : w1 = w2) :
    is_file_compressed inflate d1 = is_file_compressed inflate d2 ∧
    decompress inflate d1 = decompress inflate d2 ∧
    compress deflate t1 = compress deflate t2 ∧
    format_json jparse jpretty s1 = format_json jparse jpretty s2 ∧
    run w1 = run w2 := by
  subst hd; subst ht; subst hs; subst hw
  exact ⟨rfl, rfl, rfl, rfl, rfl⟩

/-- Witness for C10 at concrete inputs. -/
theorem transcoder_deterministic_witness :
    is_file_compressed (fun _ => none) [] = is_file_compressed (fun _ => none) [] ∧
    decompress (fun _ => none) [] = decompress (fun _ => none) [] ∧
    compress (fun b => b) [] = compress (fun b => b) [] ∧
    format_json noWorld.jparse noWorld.jpretty []
      = format_json noWorld.jparse noWorld.jpretty [] ∧
    run noWorld = run noWorld :=
  transcoder_deterministic (fun b => b) (fun _ => none) noWorld.jparse
    noWorld.jpretty noWorld noWorld [] [] [] [] [] [] rfl rfl rfl rfl

theorem run_decompress_ok {J : Type} (w : World J) (p op : FsPath)
    (data : Bytes) (m k : Nat) (s : Text)
    (hin : w.argPath = some p ∧ w.pathExists p = true ∨
        w.argPath = none ∧ w.pickResult = some p ∧ p.isUnicode = true)
    (hext : extAllowed p = true) (hmeta : w.metadataLen p = some m)
    (hfs : w.fsRead p = some data)
    (hdec : decompress w.inflate data = Except.ok s)
    (hsave : w.saveResult = some op) (huni : op.isUnicode = true)
    (hw : w.writeOk op = true) (hout : w.outMetaLen op = some k) :
    run w = (Except.ok (),
      [RunEvent.readFile p, RunEvent.readFile p, RunEvent.appliedDecompress,
        RunEvent.wroteFile op (utf8Encode (format_json w.jparse w.jpretty s))]) := by
  have hcomp : is_file_compressed w.inflate data = true := by
    unfold is_file_compressed
    rw [hdec]
    rfl
  unfold run runWithInput withPre decompressGo
  rcases hin with ⟨h1, h2⟩ | ⟨h1, h2, h3⟩
  · rw [h1]
    simp [h2, hext, hmeta, hfs, hsave, huni, hcomp, hdec, hw, hout]
  · rw [h1, h2]
    simp [h3, hext, hmeta, hfs, hsave, huni, hcomp, hdec, hw, hout]

/-- C4: on the decompress path, when the decompressed text parses as JSON,
the run succeeds, the text written to the output is the pretty-printed
form, that output is syntactically valid JSON, and parsing it yields a
value equal to the one parsed from the decompressed text.  The serde_json
library enters through its documented contract: re-parsing a value it
serialized yields the value back (and when pretty-printing fails,
format_json falls back to the input text, which parses to the same value). -/
theorem run_decompress_json_reparse {J : Type} (w : World J) (p op : FsPath)
    (data : Bytes) (m k : Nat) (s : Text) (v : J)
    (hin : w.argPath = some p ∧ w.pathExists p = true ∨
        w.argPath = none ∧ w.pickResult = some p ∧ p.isUnicode = true)
    (hext : extAllowed p = true) (hmeta : w.metadataLen p = some m)
    (hfs : w.fsRead p = some data)
    (hdec : decompress w.inflate data = Except.ok s)
    (hsave : w.saveResult = some op) (huni : op.isUnicode = true)
    (hw : w.writeOk op = true) (hout : w.outMetaLen op = some k)
    (hre : ∀ u t, w.jpretty u = some t → w.jparse t = some u)
    (hv : w.jparse s = some v) :
    (run w).1 = Except.ok () ∧
    RunEvent.wroteFile op (utf8Encode (format_json w.jparse w.jpretty s))
      ∈ (run w).2 ∧
    w.jparse (format_json w.jparse w.jpretty s) = some v := by
  have hrun := run_decompress_ok w p op data m k s hin hext hmeta hfs hdec
    hsave huni hw hout
  refine ⟨by rw [hrun], by rw [hrun]; simp, ?_⟩
  have hfj : format_json w.jparse w.jpretty s
      = match w.jpretty v with | none => s | some p => p := by
    unfold format_json
    rw [hv]
  rw [hfj]
  cases hp : w.jpretty v with
  | none => exact hv
  | some t => exact hre v t hp

/-- Witness for C4 at `jsonWorld`: the payload is the text 1, which the
sample parser accepts. -/
theorem run_decompress_json_reparse_witness :
    (run jsonWorld).1 = Except.ok () ∧
    RunEvent.wroteFile samplePathOut
        (utf8Encode (format_json jsonWorld.jparse jsonWorld.jpretty [0x31]))
      ∈ (run jsonWorld).2 ∧
    jsonWorld.jparse (format_json jsonWorld.jparse jsonWorld.jpretty [0x31])
      = some () :=
  run_decompress_json_reparse jsonWorld samplePathJson samplePathOut [] 1 1
    [0x31] () (Or.inl ⟨rfl, rfl⟩) (by decide) rfl rfl rfl rfl rfl rfl rfl
    (fun u t h => by injection h with h2; rw [← h2]; rfl) rfl

/-- C5: on the decompress path, when the decompressed text does not parse
as JSON, format_json is the identity on it, the run still succeeds (a
non-JSON payload is never a failure), and the text written to the output is
byte-identical to the decompressed text. -/
theorem run_decompress_non_json_id {J : Type} (w : World J) (p op : FsPath)
    (data : Bytes) (m k : Nat) (s : Text)
    (hin : w.argPath = some p ∧ w.pathExists p = true ∨
        w.argPath = none ∧ w.pickResult = some p ∧ p.isUnicode = true)
    (hext : extAllowed p = true) (hmeta : w.metadataLen p = some m)
    (hfs : w.fsRead p = some data)
    (hdec : decompress w.inflate data = Except.ok s)
    (hsave : w.saveResult = some op) (huni : op.isUnicode = true)
    (hw : w.writeOk op = true) (hout : w.outMetaLen op = some k)
    (hnj : w.jparse s = none) :
    format_json w.jparse w.jpretty s = s ∧
    (run w).1 = Except.ok () ∧
    RunEvent.wroteFile op (utf8Encode s) ∈ (run w).2 := by
  have hid : format_json w.jparse w.jpretty s = s := by
    unfold format_json
    rw [hnj]
  have hrun := run_decompress_ok w p op data m k s hin hext hmeta hfs hdec
    hsave huni hw hout
  rw [hid] at hrun
  exact ⟨hid, by rw [hrun], by rw [hrun]; simp⟩

/-- Witness for C5 at `nonJsonWorld`: the payload is the text a, which no
parse accepts. -/
theorem run_decompress_non_json_id_witness :
    format_json nonJsonWorld.jparse nonJsonWorld.jpretty [0x61] = [0x61] ∧
    (run nonJsonWorld).1 = Except.ok () ∧
    RunEvent.wroteFile samplePathOut (utf8Encode [0x61]) ∈ (run nonJsonWorld).2 :=
  run_decompress_non_json_id nonJsonWorld samplePathJson samplePathOut [] 1 1
    [0x61] (Or.inl ⟨rfl, rfl⟩) (by decide) rfl rfl rfl rfl rfl rfl rfl rfl

theorem withPre_transform (p : FsPath) (x : Except RunError Unit × List RunEvent)
    (h : transformCount x.2 ≤ 1 ∧
      ((∃ q d, RunEvent.wroteFile q d ∈ x.2) → transformCount x.2 = 1)) :
    transformCount (withPre (RunEvent.readFile p) x).2 ≤ 1 ∧
    ((∃ q d, RunEvent.wroteFile q d ∈ (withPre (RunEvent.readFile p) x).2) →
      transformCount (withPre (RunEvent.readFile p) x).2 = 1) := by
  unfold withPre
  constructor
  · simpa [transformCount, List.countP_cons, isTransform] using h.1
  · rintro ⟨q, d, hq⟩
    simp only [List.mem_cons] at hq
    rcases hq with hq | hq
    · simp at hq
    · have hone := h.2 ⟨q, d, hq⟩
      simpa [transformCount, List.countP_cons, isTransform] using hone

theorem compressGo_transform {J : Type} (w : World J) (p op : FsPath) :
    transformCount (compressGo w p op).2 ≤ 1 ∧
    ((∃ q d, RunEvent.wroteFile q d ∈ (compressGo w p op).2) →
      transformCount (compressGo w p op).2 = 1) := by
  unfold compressGo
  split
  · simp [transformCount]
  · split
    · simp [transformCount, List.countP_cons, List.countP_nil, isTransform]
    · split
      · split <;>
          simp [transformCount, List.countP_cons, List.countP_nil, isTransform]
      · simp [transformCount, List.countP_cons, List.countP_nil, isTransform]

theorem decompressGo_transform {J : Type} (w : World J) (p op : FsPath) :
    transformCount (decompressGo w p op).2 ≤ 1 ∧
    ((∃ q d, RunEvent.wroteFile q d ∈ (decompressGo w p op).2) →
      transformCount (decompressGo w p op).2 = 1) := by
  unfold decompressGo
  split
  · simp [transformCount]
  · split
    · simp [transformCount, List.countP_cons, List.countP_nil, isTransform]
    · split
      · split <;>
          simp [transformCount, List.countP_cons, List.countP_nil, isTransform]
      · simp [transformCount, List.countP_cons, List.countP_nil, isTransform]

theorem runWithInput_transform {J : Type} (w : World J) (p : FsPath) :
    transformCount (runWithInput w p).2 ≤ 1 ∧
    ((∃ q d, RunEvent.wroteFile q d ∈ (runWithInput w p).2) →
      transformCount (runWithInput w p).2 = 1) := by
  unfold runWithInput
  split
  · split
    · simp [transformCount]
    · split
      · simp [transformCount]
      · split
        · simp [transformCount, List.countP_cons, List.countP_nil, isTransform]
        · split
          · split
            · exact withPre_transform p _ (decompressGo_transform w p _)
            · exact withPre_transform p _ (compressGo_transform w p _)
          · simp [transformCount, List.countP_cons, List.countP_nil, isTransform]
  · simp [transformCount]

/-- C6 (amended): in every run at most one of the two transforms
{decompress, compress} is applied — never both — and every run that writes
an output file applied exactly one, the choice made by the
trial-decompression detection; runs that end before the transform stage
(an error exit, or a cancelled/unusable dialog) apply neither, which is
the one respect in which the claim's never-neither reading fails. -/
theorem run_transform_count {J : Type} (w : World J) :
    transformCount (run w).2 ≤ 1 ∧
    ((∃ q d, RunEvent.wroteFile q d ∈ (run w).2) →
      transformCount (run w).2 = 1) := by
  unfold run
  split
  · split
    · exact runWithInput_transform w _
    · simp [transformCount]
  · split
    · simp [transformCount]
    · split
      · exact runWithInput_transform w _
      · simp [transformCount]

/-- Counterexample to C6 as stated: a run can terminate successfully while
applying neither transform — here the open dialog answers with a path that
is not valid Unicode, and the run is the quiet File-is-not-selected no-op
with an empty trace. -/
theorem run_no_transform_cx :
    (run quietNoOpWorld).1 = Except.ok () ∧
    transformCount (run quietNoOpWorld).2 = 0 :=
  ⟨rfl, rfl⟩

/-- Witness for C6 (amended) at a run that writes an output. -/
theorem run_transform_count_witness :
    transformCount (run compressHappyWorld).2 = 1 :=
  (run_transform_count compressHappyWorld).2
    ⟨samplePathOut, [0x61], by decide⟩

/-- C7 is contradicted by the code: cancelling a file dialog ends the run
with an error, not a quiet successful no-op.  A cancelled open dialog
(`pick_file()` = `None`) propagates through `.context(..)?` as the
Failed-to-select-file error, and a cancelled save dialog as the
Failed-to-save-file error; the quiet informational branches
(File-is-not-selected / File-is-not-saved, returning `Ok`) are reachable
only for dialog paths that are not valid Unicode. -/
theorem run_cancelled_dialog_is_error :
    run noWorld = (Except.error RunError.selectFailed, []) ∧
    run saveCancelWorld
      = (Except.error RunError.saveSelectFailed,
          [RunEvent.readFile samplePathJson]) :=
  ⟨rfl, rfl⟩

/-- C8: an input path whose lowercased extension is not wbox, wbax or json
(including a missing extension) ends the run with the
unsupported-extension error and an empty event trace — in particular no
byte of the file was read. -/
theorem run_rejects_unsupported_ext {J : Type} (w : World J) (p : FsPath)
    (hin : w.argPath = some p ∧ w.pathExists p = true ∨
        w.argPath = none ∧ w.pickResult = some p ∧ p.isUnicode = true)
    (hext : extAllowed p = false) :
    run w = (Except.error RunError.unsupportedExtension, []) := by
  unfold run runWithInput
  rcases hin with ⟨h1, h2⟩ | ⟨h1, h2, h3⟩
  · rw [h1]
    simp [h2, hext]
  · rw [h1, h2]
    simp [h3, hext]

/-- Witness for C8: a txt argument path is rejected with no read. -/
theorem run_rejects_unsupported_ext_witness :
    run txtWorld = (Except.error RunError.unsupportedExtension, []) :=
  run_rejects_unsupported_ext txtWorld samplePathTxt (Or.inl ⟨rfl, rfl⟩)
    (by decide)

/-- C9: on the compress path (input classified as not compressed), an input
whose bytes are not valid UTF-8 makes the UTF-8 read fail and the run abort
with the decode error; the trace holds only the two reads (the detection
probe's and the compress path's) and no output write. -/
theorem run_compress_utf8_error {J : Type} (w : World J) (p op : FsPath)
    (data : Bytes) (m : Nat)
    (hin : w.argPath = some p ∧ w.pathExists p = true ∨
        w.argPath = none ∧ w.pickResult = some p ∧ p.isUnicode = true)
    (hext : extAllowed p = true) (hmeta : w.metadataLen p = some m)
    (hfs : w.fsRead p = some data)
    (hnc : is_file_compressed w.inflate data = false)
    (hsave : w.saveResult = some op) (huni : op.isUnicode = true)
    (hutf : utf8Decode data = none) :
    run w = (Except.error RunError.utf8Failed,
      [RunEvent.readFile p, RunEvent.readFile p]) ∧
    ∀ q d, RunEvent.wroteFile q d ∉ (run w).2 := by
  have hrun : run w = (Except.error RunError.utf8Failed,
      [RunEvent.readFile p, RunEvent.readFile p]) := by
    unfold run runWithInput withPre compressGo
    rcases hin with ⟨h1, h2⟩ | ⟨h1, h2, h3⟩
    · rw [h1]
      simp [h2, hext, hmeta, hfs, hnc, hsave, huni, hutf]
    · rw [h1, h2]
      simp [h3, hext, hmeta, hfs, hnc, hsave, huni, hutf]
  refine ⟨hrun, ?_⟩
  intro q d
  rw [hrun]
  simp

/-- Witness for C9: an input file holding the single byte 0x80. -/
theorem run_compress_utf8_error_witness :
    run badUtfWorld = (Except.error RunError.utf8Failed,
      [RunEvent.readFile samplePathJson, RunEvent.readFile samplePathJson]) :=
  (run_compress_utf8_error badUtfWorld samplePathJson samplePathOut [0x80] 1
    (Or.inl ⟨rfl, rfl⟩) (by decide) rfl rfl rfl rfl rfl rfl).1
